import Mathlib

/-!
Verification of the login / user microservice (`main.py`).

The core of the service is embedded shallowly:
* Python `str` values are modelled as `List Char` (a Python string is a
  sequence of code points), called `PyStr` below.
* `bytes` values are modelled as `List Nat` whose elements are `< 256`.
* the library primitive `hashlib.pbkdf2_hmac("sha256", ...)` is an opaque
  deterministic key-derivation function; it is abstracted as an explicit
  function parameter `pbkdf2 : PyStr → List Nat → Nat → List Nat`
  (password, salt, rounds ↦ derived key).
* `base64.b64encode` / `base64.b64decode` are implemented concretely
  (standard base64 alphabet with `=` padding); decoding is the strict
  inverse and returns `none` where the Python call would raise.
* the random draws (`secrets.token_bytes(16)` for salts,
  `secrets.token_urlsafe(32)` for session tokens) are passed in as
  explicit arguments, so every theorem quantifies over the drawn values.
* mutable module state (`USERS`, `SESSIONS`) becomes an explicit
  `ServerState` record threaded through the endpoint handlers; every call
  to `save_users()` is recorded as a snapshot appended to a `writes` log.
* `time.time()` is passed in as an explicit `now : Int` argument;
  `TOKEN_TTL_SECONDS` is an explicit `ttl : Int` parameter.
-/

namespace LoginService
/-- Python `str`, as a sequence of code points. -/
abbrev PyStr := List Char

/-- Python `str.strip()`: drop leading and trailing whitespace. -/
def pyStrip (s : PyStr) : PyStr :=
  ((s.dropWhile Char.isWhitespace).reverse.dropWhile Char.isWhitespace).reverse

/-- Decidable equality for `Except`, needed to evaluate handler results
on concrete inputs. -/
instance {ε α : Type} [DecidableEq ε] [DecidableEq α] :
    DecidableEq (Except ε α)
  | .error a, .error b =>
      if h : a = b then isTrue (by rw [h])
      else isFalse (by intro hh; cases hh; exact h rfl)
  | .error _, .ok _ => isFalse (by intro hh; cases hh)
  | .ok _, .error _ => isFalse (by intro hh; cases hh)
  | .ok a, .ok b =>
      if h : a = b then isTrue (by rw [h])
      else isFalse (by intro hh; cases hh; exact h rfl)

/-! ## base64 (`base64.b64encode` / `base64.b64decode`) -/

/-- The standard base64 alphabet, in value order. -/
def b64Alphabet : List Char :=
  "ABCDEFGHIJKLMNOPQRSTUVWXYZabcdefghijklmnopqrstuvwxyz0123456789+/".toList

/-- The character encoding a 6-bit value. -/
def sextetToChar (v : Nat) : Char := b64Alphabet.getD v 'A'

/-- The 6-bit value of an alphabet character (`none` off the alphabet). -/
def charToSextet (c : Char) : Option Nat := b64Alphabet.findIdx? (fun x => x == c)

/-- `base64.b64encode` on a byte string, producing the character sequence
of the standard padded encoding. -/
def b64encodeList : List Nat → List Char
  | [] => []
  | [a] => [sextetToChar (a / 4), sextetToChar (a % 4 * 16), '=', '=']
  | [a, b] =>
      [sextetToChar (a / 4), sextetToChar (a % 4 * 16 + b / 16),
       sextetToChar (b % 16 * 4), '=']
  | a :: b :: c :: rest =>
      sextetToChar (a / 4) :: sextetToChar (a % 4 * 16 + b / 16) ::
      sextetToChar (b % 16 * 4 + c / 64) :: sextetToChar (c % 64) ::
      b64encodeList rest

/-- `base64.b64decode` on a character sequence: strict inverse of the padded
encoding; `none` models the `binascii.Error` the Python call raises on
malformed input. -/
def b64decodeList : List Char → Option (List Nat)
  | [] => some []
  | c1 :: c2 :: c3 :: c4 :: rest =>
      match charToSextet c1, charToSextet c2 with
      | some s1, some s2 =>
          if c3 = '=' then
            if c4 = '=' ∧ rest = [] then some [s1 * 4 + s2 / 16] else none
          else
            match charToSextet c3 with
            | some s3 =>
                if c4 = '=' then
                  if rest = [] then
                    some [s1 * 4 + s2 / 16, s2 % 16 * 16 + s3 / 4]
                  else none
                else
                  match charToSextet c4 with
                  | some s4 =>
                      (b64decodeList rest).map
                        (fun bs => (s1 * 4 + s2 / 16) ::
                          (s2 % 16 * 16 + s3 / 4) :: (s3 % 4 * 64 + s4) :: bs)
                  | none => none
            | none => none
      | _, _ => none
  | _ => none

/-! ## Digest format (`hash_password` / `verify_password`) -/

/-- Split off everything before the first occurrence of `c`; `none` when `c`
does not occur. Iterated below to model Python `str.split(sep, maxsplit)`. -/
def splitFirst (c : Char) : PyStr → Option (PyStr × PyStr)
  | [] => none
  | x :: xs =>
      if x = c then some ([], xs)
      else (splitFirst c xs).map (fun p => (x :: p.1, p.2))

/-- Python `stored.split("$", 3)` followed by unpacking into four names:
`some` of the four fields when the string holds at least three `$`
separators (the fourth field keeps any further `$`), else `none`
(the `ValueError` of a failed unpacking). -/
def splitDollar3 (s : PyStr) : Option (PyStr × PyStr × PyStr × PyStr) := do
  let p1 ← splitFirst '$' s
  let p2 ← splitFirst '$' p1.2
  let p3 ← splitFirst '$' p2.2
  some (p1.1, p2.1, p3.1, p3.2)

/-- Python `int(s)` restricted to the digit strings that can arise in a
round count; any string on which key derivation could not proceed with the
parsed value (signs, whitespace, non-digits) collapses to `none`, matching
the handler's catch-all returning `False`. -/
def parseNat (s : PyStr) : Option Nat :=
  if s ≠ [] ∧ s.all Char.isDigit then
    some (s.foldl (fun n c => n * 10 + (c.toNat - 48)) 0)
  else none

/-- `hmac.compare_digest` on byte strings: byte-for-byte equality (its
timing behaviour is outside this functional model). -/
def compare_digest (a b : List Nat) : Bool := a == b

/-- `_pbkdf2_hash(password, salt, rounds)`: the library call
`hashlib.pbkdf2_hmac("sha256", password.encode(), salt, rounds)`,
abstracted as the supplied deterministic function `pbkdf2`. -/
def pbkdf2_hash (pbkdf2 : PyStr → List Nat → Nat → List Nat)
    (password : PyStr) (salt : List Nat) (rounds : Nat) : List Nat :=
  pbkdf2 password salt rounds

/-- The fixed algorithm tag `"pbkdf2_sha256"`. -/
def algoTag : PyStr := "pbkdf2_sha256".toList

/-- `hash_password(password)`. The salt is drawn as
`secrets.token_bytes(16)`, with the random source abstracted as the
function argument `token_bytes`; the round count is the constant
`120_000`. Returns `pbkdf2_sha256$rounds$salt_b64$hash_b64`, or the
`ValueError` message for a password shorter than 4 characters. -/
def hash_password (pbkdf2 : PyStr → List Nat → Nat → List Nat)
    (token_bytes : Nat → List Nat) (password : PyStr) : Except PyStr PyStr :=
  if password.length < 4 then
    .error "Password must be at least 4 characters.".toList
  else
    .ok (algoTag ++ '$' :: (toString (120000 : Nat)).toList ++
         '$' :: b64encodeList (token_bytes 16) ++
         '$' :: b64encodeList (pbkdf2_hash pbkdf2 password (token_bytes 16) 120000))

/-- `verify_password(password, stored)`: parse the four `$`-separated
fields, reject an unknown algorithm tag, re-derive the key with the stored
salt and rounds and compare; every parse failure is swallowed into
`false`. -/
def verify_password (pbkdf2 : PyStr → List Nat → Nat → List Nat)
    (password stored : PyStr) : Bool :=
  match splitDollar3 stored with
  | none => false
  | some (algo, rounds_s, salt_b64, dk_b64) =>
      if algo ≠ algoTag then false
      else
        match parseNat rounds_s, b64decodeList salt_b64, b64decodeList dk_b64 with
        | some rounds, some salt, some expected =>
            compare_digest (pbkdf2_hash pbkdf2 password salt rounds) expected
        | _, _, _ => false

/-! ## Data model and mutable state -/

/-- A value of `USERS`: `{"display_name": ..., "password_hash": ...}`.
A record present in the store is modelled as truthy (the Python
`if not u` checks only catch the `None` of a failed `dict.get`). -/
structure UserRecord where
  display_name : PyStr
  password_hash : PyStr
deriving DecidableEq, Repr

/-- The `Session` dataclass. `time.time()` stamps are modelled as `Int`. -/
structure Session where
  user_id : PyStr
  created_at : Int
deriving DecidableEq, Repr

/-- `fastapi.HTTPException(status_code, detail)`. -/
structure HTTPError where
  status_code : Nat
  detail : PyStr
deriving DecidableEq, Repr

structure CreateUserRequest where
  user_id : PyStr
  password : PyStr
  display_name : PyStr
deriving DecidableEq, Repr

structure UserPublic where
  user_id : PyStr
  display_name : PyStr
deriving DecidableEq, Repr

structure CreateUserResponse where
  ok : Bool
  user : UserPublic
deriving DecidableEq, Repr

structure LoginRequest where
  user_id : PyStr
  password : PyStr
deriving DecidableEq, Repr

structure LoginResponse where
  ok : Bool
  token : PyStr
  user_id : PyStr
deriving DecidableEq, Repr

structure MeResponse where
  ok : Bool
  user : UserPublic
deriving DecidableEq, Repr

structure ValidateResponse where
  ok : Bool
  user_id : Option PyStr
  message : Option PyStr
deriving DecidableEq, Repr

/-- Python `dict` lookup (`d.get(k)`), on the association-list model. -/
def alookup {α : Type} (k : PyStr) : List (PyStr × α) → Option α
  | [] => none
  | (k2, v) :: rest => if k2 = k then some v else alookup k rest

/-- Python `del d[k]`, on the association-list model. -/
def aerase {α : Type} (k : PyStr) (l : List (PyStr × α)) : List (PyStr × α) :=
  l.filter (fun p => decide (p.1 ≠ k))

/-- Python `d[k] = v` (insert or overwrite), on the association-list model. -/
def ainsert {α : Type} (k : PyStr) (v : α) (l : List (PyStr × α)) :
    List (PyStr × α) :=
  (k, v) :: aerase k l

/-- The module-level mutable state of `main.py` (`USERS`, `SESSIONS`),
plus a log of the snapshots handed to durable storage: each call to
`save_users()` prepends the then-current `USERS` to `writes`. -/
structure ServerState where
  users : List (PyStr × UserRecord)
  sessions : List (PyStr × Session)
  writes : List (List (PyStr × UserRecord))
deriving DecidableEq, Repr

/-- `save_users()`: persist the whole current user store. -/
def save_users (st : ServerState) : ServerState :=
  { st with writes := st.users :: st.writes }

/-- What `json.load` produced, when it produced anything. -/
inductive StoredJson where
  /-- a JSON object, decoded to its user-record entries -/
  | obj (entries : List (PyStr × UserRecord))
  /-- any parsed JSON value that is not a dict (`isinstance(data, dict)` fails) -/
  | nonDict
deriving DecidableEq, Repr

/-- The durable storage (`users.json`) as `load_users` can encounter it. -/
inductive DataFile where
  /-- `os.path.exists(DATA_FILE)` is false -/
  | absent
  /-- `open` raises (unreadable file) -/
  | unreadable
  /-- `json.load` raises (corrupt contents) -/
  | unparseable
  /-- `json.load` returns a value -/
  | parsed (j : StoredJson)
deriving DecidableEq, Repr

/-- `load_users()`: the resulting `USERS` map. Every failure path (missing
file, raised exception, non-dict payload) yields the empty store. -/
def load_users : DataFile → List (PyStr × UserRecord)
  | .absent => []
  | .unreadable => []
  | .unparseable => []
  | .parsed (.obj entries) => entries
  | .parsed .nonDict => []

/-- The `startup` event: `load_users()` with empty `SESSIONS` and nothing
yet written. -/
def startup (f : DataFile) : ServerState :=
  ⟨load_users f, [], []⟩

/-- `public_user(user_id)`: public profile or a 404 `HTTPException`. -/
def public_user (users : List (PyStr × UserRecord)) (user_id : PyStr) :
    Except HTTPError UserPublic :=
  match alookup user_id users with
  | none => .error ⟨404, "User not found".toList⟩
  | some u => .ok ⟨user_id, u.display_name⟩

/-- `_session_valid(token)`: the session if the token is live, together
with the resulting `SESSIONS` map (lazy expiry deletes the entry). -/
def session_valid (ttl now : Int) (token : PyStr)
    (sessions : List (PyStr × Session)) :
    Option Session × List (PyStr × Session) :=
  match alookup token sessions with
  | none => (none, sessions)
  | some sess =>
      if ttl > 0 ∧ now - sess.created_at > ttl then (none, aerase token sessions)
      else (some sess, sessions)

/-! ## Endpoint handlers -/

/-- `POST /users` (`create_user`). The random source for the salt drawn
inside `hash_password` is the explicit `token_bytes` argument. -/
def create_user (pbkdf2 : PyStr → List Nat → Nat → List Nat)
    (token_bytes : Nat → List Nat) (req : CreateUserRequest) (st : ServerState) :
    Except HTTPError CreateUserResponse × ServerState :=
  if pyStrip req.user_id = [] then
    (.error ⟨400, "user_id cannot be blank".toList⟩, st)
  else if (alookup (pyStrip req.user_id) st.users).isSome then
    (.error ⟨409, "User already exists".toList⟩, st)
  else
    match hash_password pbkdf2 token_bytes req.password with
    | .error e => (.error ⟨400, e⟩, st)
    | .ok pw_hash =>
        match public_user (save_users { st with users := ainsert (pyStrip req.user_id) ⟨pyStrip req.display_name, pw_hash⟩ st.users }).users (pyStrip req.user_id) with
        | .error e =>
            (.error e, save_users { st with users := ainsert (pyStrip req.user_id) ⟨pyStrip req.display_name, pw_hash⟩ st.users })
        | .ok pu =>
            (.ok ⟨true, pu⟩, save_users { st with users := ainsert (pyStrip req.user_id) ⟨pyStrip req.display_name, pw_hash⟩ st.users })

/-- `GET /users/{user_id}` (`get_user`). -/
def get_user (user_id : PyStr) (st : ServerState) :
    Except HTTPError UserPublic × ServerState :=
  (public_user st.users user_id, st)

/-- `POST /login`. The fresh token (`secrets.token_urlsafe(32)`) and the
current time are explicit arguments. -/
def login (pbkdf2 : PyStr → List Nat → Nat → List Nat)
    (token : PyStr) (now : Int) (req : LoginRequest) (st : ServerState) :
    Except HTTPError LoginResponse × ServerState :=
  match alookup (pyStrip req.user_id) st.users with
  | none => (.error ⟨401, "Invalid credentials".toList⟩, st)
  | some u =>
      if ¬ verify_password pbkdf2 req.password u.password_hash then
        (.error ⟨401, "Invalid credentials".toList⟩, st)
      else
        (.ok ⟨true, token, pyStrip req.user_id⟩,
         { st with sessions :=
            ainsert token ⟨pyStrip req.user_id, now⟩ st.sessions })

/-- `GET /me`. -/
def me (ttl now : Int) (token : PyStr) (st : ServerState) :
    Except HTTPError MeResponse × ServerState :=
  match (session_valid ttl now token st.sessions).1 with
  | none =>
      (.error ⟨401, "Invalid or expired token".toList⟩,
       { st with sessions := (session_valid ttl now token st.sessions).2 })
  | some sess =>
      match public_user st.users sess.user_id with
      | .error e =>
          (.error e,
           { st with sessions := (session_valid ttl now token st.sessions).2 })
      | .ok pu =>
          (.ok ⟨true, pu⟩,
           { st with sessions := (session_valid ttl now token st.sessions).2 })

/-- `GET /validate`. -/
def validate (ttl now : Int) (token : PyStr) (st : ServerState) :
    ValidateResponse × ServerState :=
  match (session_valid ttl now token st.sessions).1 with
  | none =>
      (⟨false, none, some "Invalid or expired token".toList⟩,
       { st with sessions := (session_valid ttl now token st.sessions).2 })
  | some sess =>
      (⟨true, some sess.user_id, none⟩,
       { st with sessions := (session_valid ttl now token st.sessions).2 })

/-! ## Reachable states -/

/-- One state-mutating request handled by the service. `get_user`, `root`,
`health` and `ping` never touch the state and are omitted. The
key-derivation function, random draws and clock readings of each call are
quantified per step. -/
inductive Step (ttl : Int) : ServerState → ServerState → Prop where
  | create_user (pbkdf2 : PyStr → List Nat → Nat → List Nat)
      (token_bytes : Nat → List Nat) (req : CreateUserRequest) (st : ServerState) :
      Step ttl st (create_user pbkdf2 token_bytes req st).2
  | login (pbkdf2 : PyStr → List Nat → Nat → List Nat)
      (token : PyStr) (now : Int) (req : LoginRequest) (st : ServerState) :
      Step ttl st (login pbkdf2 token now req st).2
  | me (now : Int) (token : PyStr) (st : ServerState) :
      Step ttl st (me ttl now token st).2
  | validate (now : Int) (token : PyStr) (st : ServerState) :
      Step ttl st (validate ttl now token st).2

/-- States the process can be in: startup from any durable file, followed
by any sequence of handled requests. -/
inductive Reachable (ttl : Int) : ServerState → Prop where
  | startup (f : DataFile) : Reachable ttl (startup f)
  | step {s t : ServerState} : Reachable ttl s → Step ttl s t → Reachable ttl t

/-- Referential integrity: every live session names a stored user. -/
def SessionsRefUsers (st : ServerState) : Prop :=
  ∀ token sess, alookup token st.sessions = some sess →
    (alookup sess.user_id st.users).isSome

/-! ## Concrete fixtures used by the witnesses -/

/-- A stand-in for the opaque library KDF, for concrete evaluation. -/
def constKdf : PyStr → List Nat → Nat → List Nat := fun _ _ _ => [7]

/-- A stand-in for `secrets.token_bytes`, for concrete evaluation. -/
def constTB : Nat → List Nat := fun n => List.replicate n 1

/-- The digest `hash_password` produces for `"abcd"` under `constKdf` and
`constTB`. -/
def abcdDigest : PyStr :=
  "pbkdf2_sha256$120000$AQEBAQEBAQEBAQEBAQEBAQ==$Bw==".toList

def emptyState : ServerState := ⟨[], [], []⟩

/-- A store whose key survives only because nothing ever stripped it. -/
def C3state : ServerState :=
  ⟨[(" a ".toList, ⟨"N".toList, "h".toList⟩)], [], []⟩

def C3req : CreateUserRequest := ⟨" a ".toList, "pass".toList, "N".toList⟩

def C3okState : ServerState :=
  ⟨[("a".toList, ⟨"N".toList, "h".toList⟩)], [], []⟩

def C3okReq : CreateUserRequest := ⟨"a".toList, "pass".toList, "N".toList⟩

def C4state : ServerState :=
  ⟨[("al".toList, ⟨"Al".toList, abcdDigest⟩)], [], []⟩

def C5state : ServerState := ⟨[], [("t".toList, ⟨"u".toList, 0⟩)], []⟩

def C9req : CreateUserRequest := ⟨"al".toList, "abcd".toList, "Al".toList⟩

def C9login : LoginRequest := ⟨"al".toList, "abcd".toList⟩

/-- A state reached by: start with no file, register `"al"`, log in. -/
def C9state : ServerState :=
  (login constKdf "tok".toList 0 C9login
    (create_user constKdf constTB C9req (startup .absent)).2).2

/-! ## Theorems -/

theorem charToSextet_sextetToChar : ∀ v < 64, charToSextet (sextetToChar v) = some v := by
  decide

theorem sextetToChar_mem (v : Nat) : sextetToChar v ∈ b64Alphabet := by
  by_cases h : v < b64Alphabet.length
  · unfold sextetToChar
    rw [List.getD_eq_getElem _ _ h]
    exact List.getElem_mem h
  · have h2 : sextetToChar v = 'A' :=
      List.getD_eq_default _ _ (Nat.le_of_not_lt h)
    rw [h2]
    decide

theorem sextetToChar_ne_dollar (v : Nat) : sextetToChar v ≠ '$' := by
  intro h
  have := sextetToChar_mem v
  rw [h] at this
  revert this
  decide

theorem sextetToChar_ne_eq (v : Nat) : sextetToChar v ≠ '=' := by
  intro h
  have := sextetToChar_mem v
  rw [h] at this
  revert this
  decide

/-- Every character of a base64 encoding is an alphabet character or `=`. -/
theorem b64encode_chars (bs : List Nat) :
    ∀ c ∈ b64encodeList bs, c ∈ b64Alphabet ∨ c = '=' := by
  induction bs using b64encodeList.induct with
  | case1 => intro c hc; simp [b64encodeList] at hc
  | case2 a =>
      intro c hc
      simp only [b64encodeList, List.mem_cons, List.not_mem_nil, or_false] at hc
      rcases hc with h | h | h | h
      all_goals first
        | (left; rw [h]; exact sextetToChar_mem _)
        | (right; exact h)
  | case3 a b =>
      intro c hc
      simp only [b64encodeList, List.mem_cons, List.not_mem_nil, or_false] at hc
      rcases hc with h | h | h | h
      all_goals first
        | (left; rw [h]; exact sextetToChar_mem _)
        | (right; exact h)
  | case4 a b c rest ih =>
      intro d hd
      simp only [b64encodeList, List.mem_cons] at hd
      rcases hd with h | h | h | h | h
      · left; rw [h]; exact sextetToChar_mem _
      · left; rw [h]; exact sextetToChar_mem _
      · left; rw [h]; exact sextetToChar_mem _
      · left; rw [h]; exact sextetToChar_mem _
      · exact ih d h

theorem dollar_not_mem_b64encode (bs : List Nat) : '$' ∉ b64encodeList bs := by
  intro h
  rcases b64encode_chars bs '$' h with h1 | h1
  · revert h1; decide
  · exact absurd h1 (by decide)

/-- Decoding inverts encoding on genuine byte strings. -/
theorem b64decode_b64encode (bs : List Nat) (hb : ∀ x ∈ bs, x < 256) :
    b64decodeList (b64encodeList bs) = some bs := by
  induction bs using b64encodeList.induct with
  | case1 => rfl
  | case2 a =>
      have ha : a < 256 := hb a (by simp)
      have h1 : a / 4 < 64 := by omega
      have h2 : a % 4 * 16 < 64 := by omega
      have e1 : a / 4 * 4 + a % 4 * 16 / 16 = a := by omega
      simp [b64encodeList, b64decodeList,
        charToSextet_sextetToChar _ h1, charToSextet_sextetToChar _ h2,
        sextetToChar_ne_eq]
      all_goals omega
  | case3 a b =>
      have ha : a < 256 := hb a (by simp)
      have hbb : b < 256 := hb b (by simp)
      have h1 : a / 4 < 64 := by omega
      have h2 : a % 4 * 16 + b / 16 < 64 := by omega
      have h3 : b % 16 * 4 < 64 := by omega
      have e1 : a / 4 * 4 + (a % 4 * 16 + b / 16) / 16 = a := by omega
      have e2 : (a % 4 * 16 + b / 16) % 16 * 16 + b % 16 * 4 / 4 = b := by omega
      simp [b64encodeList, b64decodeList,
        charToSextet_sextetToChar _ h1, charToSextet_sextetToChar _ h2,
        charToSextet_sextetToChar _ h3, sextetToChar_ne_eq]
      all_goals omega
  | case4 a b c rest ih =>
      have ha : a < 256 := hb a (by simp)
      have hbb : b < 256 := hb b (by simp)
      have hc : c < 256 := hb c (by simp)
      have hrest : ∀ x ∈ rest, x < 256 := by
        intro x hx; exact hb x (by simp [hx])
      have h1 : a / 4 < 64 := by omega
      have h2 : a % 4 * 16 + b / 16 < 64 := by omega
      have h3 : b % 16 * 4 + c / 64 < 64 := by omega
      have h4 : c % 64 < 64 := by omega
      have e1 : a / 4 * 4 + (a % 4 * 16 + b / 16) / 16 = a := by omega
      have e2 : (a % 4 * 16 + b / 16) % 16 * 16 + (b % 16 * 4 + c / 64) / 4 = b := by
        omega
      have e3 : (b % 16 * 4 + c / 64) % 4 * 64 + c % 64 = c := by omega
      simp [b64encodeList, b64decodeList,
        charToSextet_sextetToChar _ h1, charToSextet_sextetToChar _ h2,
        charToSextet_sextetToChar _ h3, charToSextet_sextetToChar _ h4,
        sextetToChar_ne_eq, ih hrest]
      all_goals omega

theorem splitFirst_append (c : Char) (a rest : PyStr) (ha : c ∉ a) :
    splitFirst c (a ++ c :: rest) = some (a, rest) := by
  induction a with
  | nil => simp [splitFirst]
  | cons x xs ih =>
      have hx : x ≠ c := fun h => ha (by simp [h])
      have hxs : c ∉ xs := fun h => ha (by simp [h])
      simp [splitFirst, hx, ih hxs]

theorem splitDollar3_digest (a b c d : PyStr)
    (ha : '$' ∉ a) (hb : '$' ∉ b) (hc : '$' ∉ c) :
    splitDollar3 (a ++ '$' :: b ++ '$' :: c ++ '$' :: d) = some (a, b, c, d) := by
  unfold splitDollar3
  simp only [List.append_assoc, List.cons_append]
  rw [splitFirst_append _ _ _ ha]
  simp only [Option.bind_eq_bind, Option.some_bind]
  rw [splitFirst_append _ _ _ hb]
  simp only [Option.some_bind]
  rw [splitFirst_append _ _ _ hc]
  rfl

theorem dollar_not_mem_roundsRepr : '$' ∉ (toString (120000 : Nat)).toList := by
  decide

theorem dollar_not_mem_algoTag : '$' ∉ algoTag := by
  decide

theorem parseNat_roundsRepr : parseNat (toString (120000 : Nat)).data = some 120000 := by
  decide

/-- The digest produced by `hash_password` on a long-enough password. -/
theorem hash_password_ok (pbkdf2 : PyStr → List Nat → Nat → List Nat)
    (token_bytes : Nat → List Nat) (password : PyStr) (hlen : 4 ≤ password.length) :
    hash_password pbkdf2 token_bytes password =
      .ok (algoTag ++ '$' :: (toString (120000 : Nat)).toList ++
           '$' :: b64encodeList (token_bytes 16) ++
           '$' :: b64encodeList (pbkdf2 password (token_bytes 16) 120000)) := by
  unfold hash_password
  rw [if_neg (by omega)]
  rfl

/-- Core round trip: verifying a password against its own fresh digest
succeeds, for any drawn salt made of bytes and any key-derivation function
producing bytes. -/
theorem verify_hash_roundtrip (pbkdf2 : PyStr → List Nat → Nat → List Nat)
    (token_bytes : Nat → List Nat) (password : PyStr) (hlen : 4 ≤ password.length)
    (hsalt : ∀ x ∈ token_bytes 16, x < 256)
    (hdk : ∀ x ∈ pbkdf2 password (token_bytes 16) 120000, x < 256) :
    ∀ digest, hash_password pbkdf2 token_bytes password = .ok digest →
      verify_password pbkdf2 password digest = true := by
  intro digest hd
  rw [hash_password_ok pbkdf2 token_bytes password hlen] at hd
  cases hd
  unfold verify_password
  rw [splitDollar3_digest _ _ _ _ dollar_not_mem_algoTag dollar_not_mem_roundsRepr
    (dollar_not_mem_b64encode (token_bytes 16))]
  simp [parseNat_roundsRepr, b64decode_b64encode (token_bytes 16) hsalt,
    b64decode_b64encode _ hdk, compare_digest, pbkdf2_hash]

theorem alookup_aerase {α : Type} (k k2 : PyStr) (l : List (PyStr × α)) :
    alookup k2 (aerase k l) = if k2 = k then none else alookup k2 l := by
  induction l with
  | nil => simp [aerase, alookup]
  | cons p rest ih =>
      by_cases hp : p.1 = k
      · have : aerase k (p :: rest) = aerase k rest := by
          simp [aerase, hp]
        rw [this, ih]
        by_cases hk : k2 = k
        · simp [hk]
        · have hne : p.1 ≠ k2 := by rw [hp]; exact fun h => hk h.symm
          simp [hk, alookup, hne]
      · have : aerase k (p :: rest) = p :: aerase k rest := by
          simp [aerase, hp]
        rw [this]
        by_cases hpk : p.1 = k2
        · have hk : ¬ k2 = k := by rw [← hpk]; exact fun h => hp h
          simp [alookup, hpk, hk]
        · simp [alookup, hpk, ih]

theorem alookup_ainsert {α : Type} (k k2 : PyStr) (v : α) (l : List (PyStr × α)) :
    alookup k2 (ainsert k v l) = if k = k2 then some v else alookup k2 l := by
  unfold ainsert
  by_cases h : k = k2
  · simp [alookup, h]
  · have h2 : ¬ k2 = k := fun hh => h hh.symm
    simp [alookup, h, alookup_aerase, h2]

theorem alookup_ainsert_isSome {α : Type} (k k2 : PyStr) (v : α)
    (l : List (PyStr × α)) (h : (alookup k2 l).isSome = true) :
    (alookup k2 (ainsert k v l)).isSome = true := by
  rw [alookup_ainsert]
  by_cases hk : k = k2
  · simp [hk]
  · simp [hk, h]

theorem alookup_aerase_some {α : Type} (k k2 : PyStr) (l : List (PyStr × α))
    (s : α) (h : alookup k2 (aerase k l) = some s) : alookup k2 l = some s := by
  rw [alookup_aerase] at h
  by_cases hk : k2 = k
  · rw [if_pos hk] at h; cases h
  · rwa [if_neg hk] at h

/-- Whatever map `session_valid` hands back, a hit in it was a hit in the
input map. -/
theorem session_valid_sessions_sub (ttl now : Int) (token : PyStr)
    (sessions : List (PyStr × Session)) (k : PyStr) (s : Session)
    (h : alookup k (session_valid ttl now token sessions).2 = some s) :
    alookup k sessions = some s := by
  unfold session_valid at h
  cases hl : alookup token sessions with
  | none => rw [hl] at h; exact h
  | some sess =>
      by_cases hc : ttl > 0 ∧ now - sess.created_at > ttl
      · simp only [hl, if_pos hc] at h
        exact alookup_aerase_some _ _ _ _ h
      · simp only [hl, if_neg hc] at h
        exact h

/-- The startup state satisfies referential integrity (no sessions yet). -/
theorem sessionsRefUsers_startup (f : DataFile) :
    SessionsRefUsers (startup f) := by
  intro token sess h
  simp [startup, alookup] at h

/-- `create_user` either leaves the state alone or inserts one record and
persists. -/
theorem create_user_state (pbkdf2 : PyStr → List Nat → Nat → List Nat)
    (token_bytes : Nat → List Nat) (req : CreateUserRequest) (st : ServerState) :
    (create_user pbkdf2 token_bytes req st).2 = st ∨
    ∃ pw_hash,
      (create_user pbkdf2 token_bytes req st).2 =
        save_users { st with users := ainsert (pyStrip req.user_id) ⟨pyStrip req.display_name, pw_hash⟩ st.users } := by
  unfold create_user
  by_cases h1 : pyStrip req.user_id = []
  · rw [if_pos h1]; left; rfl
  · rw [if_neg h1]
    by_cases h2 : (alookup (pyStrip req.user_id) st.users).isSome
    · rw [if_pos h2]; left; rfl
    · rw [if_neg h2]
      split
      · left; rfl
      · rename_i pw_hash heq
        right
        refine ⟨pw_hash, ?_⟩
        split <;> rfl

/-- `login` either leaves the state alone or, having found the user and
verified the password, inserts one session. -/
theorem login_state (pbkdf2 : PyStr → List Nat → Nat → List Nat)
    (token : PyStr) (now : Int) (req : LoginRequest) (st : ServerState) :
    (login pbkdf2 token now req st).2 = st ∨
    ∃ u, alookup (pyStrip req.user_id) st.users = some u ∧
      (login pbkdf2 token now req st).2 =
        { st with sessions :=
            ainsert token ⟨pyStrip req.user_id, now⟩ st.sessions } := by
  unfold login
  split
  · left; rfl
  · rename_i u heq
    split
    · left; rfl
    · right; exact ⟨u, heq, rfl⟩

/-- `me` only updates `SESSIONS` as `_session_valid` dictates. -/
theorem me_state (ttl now : Int) (token : PyStr) (st : ServerState) :
    (me ttl now token st).2 =
      { st with sessions := (session_valid ttl now token st.sessions).2 } := by
  unfold me
  split
  · rfl
  · split <;> rfl

/-- `validate` only updates `SESSIONS` as `_session_valid` dictates. -/
theorem validate_state (ttl now : Int) (token : PyStr) (st : ServerState) :
    (validate ttl now token st).2 =
      { st with sessions := (session_valid ttl now token st.sessions).2 } := by
  unfold validate
  split <;> rfl

/-- Every handled request preserves referential integrity. -/
theorem sessionsRefUsers_step {ttl : Int} {s t : ServerState}
    (hs : SessionsRefUsers s) (hstep : Step ttl s t) : SessionsRefUsers t := by
  cases hstep with
  | create_user pbkdf2 token_bytes req =>
      rcases create_user_state pbkdf2 token_bytes req s with heq | ⟨pw_hash, heq⟩
      · rw [heq]; exact hs
      · rw [heq]
        intro token sess h
        simp only [save_users] at h ⊢
        exact alookup_ainsert_isSome _ _ _ _ (hs token sess h)
  | login pbkdf2 tok now req =>
      rcases login_state pbkdf2 tok now req s with heq | ⟨u, hu, heq⟩
      · rw [heq]; exact hs
      · rw [heq]
        intro token sess h
        rw [alookup_ainsert] at h
        by_cases ht : tok = token
        · rw [if_pos ht] at h
          cases h
          simp [hu]
        · rw [if_neg ht] at h
          exact hs token sess h
  | me now token =>
      rw [me_state]
      intro tok sess h
      exact hs tok sess (session_valid_sessions_sub ttl now token s.sessions tok sess h)
  | validate now token =>
      rw [validate_state]
      intro tok sess h
      exact hs tok sess (session_valid_sessions_sub ttl now token s.sessions tok sess h)

/-- Referential integrity holds in every reachable state. -/
theorem sessionsRefUsers_reachable {ttl : Int} {st : ServerState}
    (h : Reachable ttl st) : SessionsRefUsers st := by
  induction h with
  | startup f => exact sessionsRefUsers_startup f
  | step _ hstep ih => exact sessionsRefUsers_step ih hstep

theorem session_valid_fst_some (ttl now : Int) (token : PyStr)
    (sessions : List (PyStr × Session)) (sess : Session)
    (h : (session_valid ttl now token sessions).1 = some sess) :
    alookup token sessions = some sess := by
  unfold session_valid at h
  cases hl : alookup token sessions with
  | none => simp [hl] at h
  | some s =>
      by_cases hc : ttl > 0 ∧ now - s.created_at > ttl
      · simp [hl, hc] at h
      · simp [hl, hc] at h
        simp [hl, h]

/-- `_session_valid` on a missing token: no session, map untouched. -/
theorem session_valid_miss (ttl now : Int) (token : PyStr)
    (sessions : List (PyStr × Session))
    (hl : alookup token sessions = none) :
    session_valid ttl now token sessions = (none, sessions) := by
  unfold session_valid
  rw [hl]

/-- `_session_valid` on a live, unexpired token. -/
theorem session_valid_hit (ttl now : Int) (token : PyStr)
    (sessions : List (PyStr × Session)) (sess : Session)
    (hl : alookup token sessions = some sess)
    (hc : ¬(ttl > 0 ∧ now - sess.created_at > ttl)) :
    session_valid ttl now token sessions = (some sess, sessions) := by
  unfold session_valid
  simp [hl, hc]

/-- `_session_valid` on an expired token: lazy deletion. -/
theorem session_valid_expired (ttl now : Int) (token : PyStr)
    (sessions : List (PyStr × Session)) (sess : Session)
    (hl : alookup token sessions = some sess)
    (h1 : ttl > 0) (h2 : now - sess.created_at > ttl) :
    session_valid ttl now token sessions = (none, aerase token sessions) := by
  unfold session_valid
  simp [hl, h1, h2]

/-- C1: for every password of length ≥ 4, hashing and then verifying that
same password against the resulting digest returns true, for any salt the
hash operation draws (any value of the random source `token_bytes`) and
any byte-valued key-derivation function. -/
theorem C1_verify_of_hash (pbkdf2 : PyStr → List Nat → Nat → List Nat)
    (token_bytes : Nat → List Nat) (password digest : PyStr)
    (hlen : 4 ≤ password.length)
    (hsalt : ∀ x ∈ token_bytes 16, x < 256)
    (hdk : ∀ x ∈ pbkdf2 password (token_bytes 16) 120000, x < 256)
    (hd : hash_password pbkdf2 token_bytes password = .ok digest) :
    verify_password pbkdf2 password digest = true :=
  verify_hash_roundtrip pbkdf2 token_bytes password hlen hsalt hdk digest hd

theorem C1_verify_of_hash_witness :
    4 ≤ ("abcd".toList : PyStr).length ∧
    hash_password constKdf constTB "abcd".toList = .ok abcdDigest ∧
    verify_password constKdf "abcd".toList abcdDigest = true :=
  ⟨by decide, by decide,
   C1_verify_of_hash constKdf constTB "abcd".toList abcdDigest
     (by decide) (by decide) (by decide) (by decide)⟩

/-- C2: a failed login produces the very same outcome — the same 401
`HTTPException` with the same `"Invalid credentials"` detail, and an
unchanged state — whether the identity is unknown or the password fails
verification, so the caller cannot tell the two causes apart. -/
theorem C2_login_failure_indistinguishable
    (pbkdf2 : PyStr → List Nat → Nat → List Nat) (token : PyStr) (now : Int)
    (req : LoginRequest) (st : ServerState)
    (h : alookup (pyStrip req.user_id) st.users = none ∨
      ∃ u, alookup (pyStrip req.user_id) st.users = some u ∧
        verify_password pbkdf2 req.password u.password_hash = false) :
    login pbkdf2 token now req st =
      (.error ⟨401, "Invalid credentials".toList⟩, st) := by
  rcases h with h | ⟨u, hu, hv⟩
  · unfold login; rw [h]
  · unfold login; rw [hu]; simp [hv]

theorem C2_login_failure_indistinguishable_witness :
    alookup (pyStrip "bob".toList) emptyState.users = none ∧
    login constKdf "t".toList 0 ⟨"bob".toList, "pass".toList⟩ emptyState =
      (.error ⟨401, "Invalid credentials".toList⟩, emptyState) :=
  ⟨by decide,
   C2_login_failure_indistinguishable constKdf "t".toList 0
     ⟨"bob".toList, "pass".toList⟩ emptyState (Or.inl (by decide))⟩

/-- C3 as frozen is false: a store key that is not whitespace-stripped
(reachable by loading a hand-written `users.json`) is registered again
rather than rejected, because `create_user` strips the incoming identity
before the membership test. At the concrete state `{" a " ↦ record}` and
request `" a "`, the call does not return Conflict and does mutate the
state. -/
theorem C3_counterexample :
    (alookup " a ".toList C3state.users).isSome = true ∧
    ¬ ((create_user constKdf constTB C3req C3state).1 =
         .error ⟨409, "User already exists".toList⟩ ∧
       (create_user constKdf constTB C3req C3state).2 = C3state) := by
  decide

/-- C3 (amended): for every identity that is unchanged by
whitespace-stripping and nonblank — every identity registration itself can
produce — creating it again fails with the 409 Conflict and returns the
state entirely unchanged: same records, same sessions, and no persisted
write. -/
theorem C3_create_conflict (pbkdf2 : PyStr → List Nat → Nat → List Nat)
    (token_bytes : Nat → List Nat) (req : CreateUserRequest)
    (st : ServerState)
    (hstrip : pyStrip req.user_id = req.user_id) (hne : req.user_id ≠ [])
    (hmem : (alookup req.user_id st.users).isSome = true) :
    create_user pbkdf2 token_bytes req st =
      (.error ⟨409, "User already exists".toList⟩, st) := by
  unfold create_user
  rw [hstrip, if_neg hne, if_pos hmem]

theorem C3_create_conflict_witness :
    pyStrip "a".toList = "a".toList ∧ "a".toList ≠ ([] : PyStr) ∧
    (alookup "a".toList C3okState.users).isSome = true ∧
    create_user constKdf constTB C3okReq C3okState =
      (.error ⟨409, "User already exists".toList⟩, C3okState) :=
  ⟨by decide, by decide, by decide,
   C3_create_conflict constKdf constTB C3okReq C3okState
     (by decide) (by decide) (by decide)⟩

/-- C4: logging in with the correct password succeeds with a token, and an
immediately following `validate` of that token resolves to the same
identity the login returned. -/
theorem C4_login_then_validate (pbkdf2 : PyStr → List Nat → Nat → List Nat)
    (token : PyStr) (ttl now : Int) (req : LoginRequest) (st : ServerState)
    (u : UserRecord)
    (hu : alookup (pyStrip req.user_id) st.users = some u)
    (hv : verify_password pbkdf2 req.password u.password_hash = true) :
    (login pbkdf2 token now req st).1 =
      .ok ⟨true, token, pyStrip req.user_id⟩ ∧
    (validate ttl now token (login pbkdf2 token now req st).2).1 =
      ⟨true, some (pyStrip req.user_id), none⟩ := by
  have hlogin : login pbkdf2 token now req st =
      (.ok ⟨true, token, pyStrip req.user_id⟩,
       { st with sessions :=
          ainsert token ⟨pyStrip req.user_id, now⟩ st.sessions }) := by
    unfold login
    rw [hu]
    simp [hv]
  rw [hlogin]
  refine ⟨rfl, ?_⟩
  have hlk : alookup token
      (ainsert token (⟨pyStrip req.user_id, now⟩ : Session) st.sessions) =
      some ⟨pyStrip req.user_id, now⟩ := by
    rw [alookup_ainsert, if_pos rfl]
  have hsv := session_valid_hit ttl now token
    (ainsert token ⟨pyStrip req.user_id, now⟩ st.sessions)
    ⟨pyStrip req.user_id, now⟩ hlk
    (by show ¬(ttl > 0 ∧ now - now > ttl); omega)
  unfold validate
  rw [hsv]

theorem C4_login_then_validate_witness :
    alookup (pyStrip "al".toList) C4state.users =
      some ⟨"Al".toList, abcdDigest⟩ ∧
    verify_password constKdf "abcd".toList abcdDigest = true ∧
    (login constKdf "tok".toList 0 ⟨"al".toList, "abcd".toList⟩ C4state).1 =
      .ok ⟨true, "tok".toList, pyStrip "al".toList⟩ ∧
    (validate 0 0 "tok".toList
      (login constKdf "tok".toList 0 ⟨"al".toList, "abcd".toList⟩
        C4state).2).1 =
      ⟨true, some (pyStrip "al".toList), none⟩ := by
  have h := C4_login_then_validate constKdf "tok".toList 0 0
    ⟨"al".toList, "abcd".toList⟩ C4state ⟨"Al".toList, abcdDigest⟩
    (by decide) (by decide)
  exact ⟨by decide, by decide, h.1, h.2⟩

/-- C5: `validate` returns Invalid on a token absent from the session map
(leaving the state alone); with a positive TTL and elapsed time strictly
beyond it, it deletes the session and returns Invalid; otherwise it
returns the owning identity; and whenever the condition
`ttl > 0 ∧ elapsed > ttl` fails — in particular for every `now` when
`ttl = 0` — a stored token is never invalidated by the passage of time. -/
theorem C5_validate_spec (ttl now : Int) (token : PyStr) (st : ServerState) :
    (alookup token st.sessions = none →
      (validate ttl now token st).1 =
        ⟨false, none, some "Invalid or expired token".toList⟩ ∧
      (validate ttl now token st).2 = st) ∧
    (∀ sess, alookup token st.sessions = some sess →
      (ttl > 0 → now - sess.created_at > ttl →
        (validate ttl now token st).1 =
          ⟨false, none, some "Invalid or expired token".toList⟩ ∧
        (validate ttl now token st).2 =
          { st with sessions := aerase token st.sessions }) ∧
      (¬(ttl > 0 ∧ now - sess.created_at > ttl) →
        (validate ttl now token st).1 = ⟨true, some sess.user_id, none⟩ ∧
        (validate ttl now token st).2 = st)) ∧
    (ttl = 0 → ∀ sess, alookup token st.sessions = some sess →
      (validate ttl now token st).1 = ⟨true, some sess.user_id, none⟩) := by
  refine ⟨?_, ?_, ?_⟩
  · intro h
    have hsv := session_valid_miss ttl now token st.sessions h
    unfold validate
    rw [hsv]
    exact ⟨rfl, rfl⟩
  · intro sess hs
    constructor
    · intro h1 h2
      have hsv := session_valid_expired ttl now token st.sessions sess hs h1 h2
      unfold validate
      rw [hsv]
      exact ⟨rfl, rfl⟩
    · intro hcon
      have hsv := session_valid_hit ttl now token st.sessions sess hs hcon
      unfold validate
      rw [hsv]
      exact ⟨rfl, rfl⟩
  · intro h0 sess hs
    have hsv := session_valid_hit ttl now token st.sessions sess hs
      (by simp [h0])
    unfold validate
    rw [hsv]

theorem C5_validate_spec_witness :
    alookup "t".toList C5state.sessions = some ⟨"u".toList, 0⟩ ∧
    (validate 1 10 "t".toList C5state).1 =
      ⟨false, none, some "Invalid or expired token".toList⟩ ∧
    (validate 1 10 "t".toList C5state).2 =
      { C5state with sessions := aerase "t".toList C5state.sessions } := by
  have h := ((C5_validate_spec 1 10 "t".toList C5state).2.1 ⟨"u".toList, 0⟩
    (by decide)).1 (by decide) (by decide)
  exact ⟨by decide, h.1, h.2⟩

/-- C6: `verify_password` is a total pure function (its Lean type), and it
returns false whenever the stored digest does not parse into four
`$`-separated fields, carries an unrecognized algorithm tag, or any field
fails to decode. -/
theorem C6_verify_false_on_bad_digest
    (pbkdf2 : PyStr → List Nat → Nat → List Nat) (password stored : PyStr)
    (h : splitDollar3 stored = none ∨
      ∃ algo rounds_s salt_b64 dk_b64,
        splitDollar3 stored = some (algo, rounds_s, salt_b64, dk_b64) ∧
        (algo ≠ algoTag ∨ parseNat rounds_s = none ∨
         b64decodeList salt_b64 = none ∨ b64decodeList dk_b64 = none)) :
    verify_password pbkdf2 password stored = false := by
  rcases h with h | ⟨algo, rounds_s, salt_b64, dk_b64, hsp, hfail⟩
  · unfold verify_password; rw [h]
  · unfold verify_password
    rw [hsp]
    by_cases ha : algo = algoTag
    · subst ha
      rcases hfail with h1 | h1 | h1 | h1
      · exact absurd rfl h1
      all_goals
        cases hpn : parseNat rounds_s <;>
          cases hsb : b64decodeList salt_b64 <;>
            cases hdb : b64decodeList dk_b64 <;>
              simp_all
    · simp [ha]

theorem C6_verify_false_on_bad_digest_witness :
    splitDollar3 "garbage".toList = none ∧
    verify_password constKdf "pw".toList "garbage".toList = false :=
  ⟨by decide,
   C6_verify_false_on_bad_digest constKdf "pw".toList "garbage".toList
     (Or.inl (by decide))⟩

/-- C7: `load_users` is a total function, and on every failing durable
file — absent, unreadable, unparseable, or parsed to a non-dict value — it
yields the empty user store, so subsequent operations behave as on "no
users". -/
theorem C7_load_never_fails :
    load_users .absent = [] ∧ load_users .unreadable = [] ∧
    load_users .unparseable = [] ∧ load_users (.parsed .nonDict) = [] :=
  ⟨rfl, rfl, rfl, rfl⟩

/-- C8: `hash_password` fails (with the length `ValueError`) exactly when
the password is shorter than 4 characters; otherwise it returns the
digest built from the algorithm tag, the decimal round count 120000, the
base64 salt drawn as `token_bytes 16`, and the base64 PBKDF2 key, joined
by `$`, a character occurring in none of the four encoded fields. -/
theorem C8_hash_structure (pbkdf2 : PyStr → List Nat → Nat → List Nat)
    (token_bytes : Nat → List Nat) (password : PyStr) :
    (password.length < 4 →
      hash_password pbkdf2 token_bytes password =
        .error "Password must be at least 4 characters.".toList) ∧
    (4 ≤ password.length →
      hash_password pbkdf2 token_bytes password =
        .ok (algoTag ++ '$' :: (toString (120000 : Nat)).toList ++
             '$' :: b64encodeList (token_bytes 16) ++
             '$' :: b64encodeList (pbkdf2 password (token_bytes 16) 120000)) ∧
      '$' ∉ algoTag ∧ '$' ∉ (toString (120000 : Nat)).toList ∧
      '$' ∉ b64encodeList (token_bytes 16) ∧
      '$' ∉ b64encodeList (pbkdf2 password (token_bytes 16) 120000)) := by
  constructor
  · intro h
    unfold hash_password
    rw [if_pos h]
  · intro h
    exact ⟨hash_password_ok pbkdf2 token_bytes password h,
      dollar_not_mem_algoTag, dollar_not_mem_roundsRepr,
      dollar_not_mem_b64encode _, dollar_not_mem_b64encode _⟩

theorem C8_hash_structure_witness :
    hash_password constKdf constTB "abc".toList =
      .error "Password must be at least 4 characters.".toList ∧
    hash_password constKdf constTB "abcd".toList =
      .ok (algoTag ++ '$' :: (toString (120000 : Nat)).toList ++
           '$' :: b64encodeList (constTB 16) ++
           '$' :: b64encodeList (constKdf "abcd".toList (constTB 16) 120000)) :=
  ⟨(C8_hash_structure constKdf constTB "abc".toList).1 (by decide),
   ((C8_hash_structure constKdf constTB "abcd".toList).2 (by decide)).1⟩

/-- C9: in every reachable state, a token that `validate` accepts names a
stored user, so `me` on that token returns the profile and never fails —
in particular never with the 404 NotFound of `public_user`. -/
theorem C9_validated_token_never_notfound {ttl : Int} {st : ServerState}
    (hr : Reachable ttl st) (now : Int) (token : PyStr)
    (hok : (validate ttl now token st).1.ok = true) :
    ∃ pu, (me ttl now token st).1 = .ok ⟨true, pu⟩ := by
  have hinv := sessionsRefUsers_reachable hr
  cases hsv : (session_valid ttl now token st.sessions).1 with
  | none =>
      unfold validate at hok
      rw [hsv] at hok
      simp at hok
  | some sess =>
      have hs : alookup token st.sessions = some sess :=
        session_valid_fst_some ttl now token st.sessions sess hsv
      have husers := hinv token sess hs
      cases hu : alookup sess.user_id st.users with
      | none => rw [hu] at husers; simp at husers
      | some u =>
          refine ⟨⟨sess.user_id, u.display_name⟩, ?_⟩
          have hpu : public_user st.users sess.user_id =
              .ok ⟨sess.user_id, u.display_name⟩ := by
            unfold public_user; rw [hu]
          unfold me
          simp only [hsv, hpu]

theorem C9_validated_token_never_notfound_witness :
    (validate 0 5 "tok".toList C9state).1.ok = true ∧
    ∃ pu, (me 0 5 "tok".toList C9state).1 = .ok ⟨true, pu⟩ := by
  have hr : Reachable 0 C9state :=
    Reachable.step
      (Reachable.step (Reachable.startup .absent)
        (Step.create_user constKdf constTB C9req (startup .absent)))
      (Step.login constKdf "tok".toList 0 C9login
        (create_user constKdf constTB C9req (startup .absent)).2)
  exact ⟨by decide,
    C9_validated_token_never_notfound hr 5 "tok".toList (by decide)⟩

end LoginService
